import Mathlib

/-!
Verification of `digfoot.py` (meerkattmatt/digfoot).

A shallow embedding of the `DigitalFootprintScanner` core: username
extraction and variant synthesis, per-platform existence probes, the
mention search, domain analysis, the progress tracker and the scan
orchestrator, together with theorems settling the specification claims.

External collaborators (HTTP transport, the Selenium driver, BeautifulSoup
parsing, the DNS resolver, JSON persistence) are modelled as oracles:
functions from URLs to optional responses whose parse-level views
(`soup.find` results, `response.json()` payloads, `href` lists) are fields
of the response, and a persistence log that records each saved report.
-/

namespace Digfoot

/-! ## Python string primitives used by the scanner -/

/-- ASCII model of Python `str.lower`. -/
def pyLower (s : String) : String := String.mk (s.toList.map Char.toLower)

/-- ASCII model of Python `str.upper`. -/
def pyUpper (s : String) : String := String.mk (s.toList.map Char.toUpper)

/-- Python `s.startswith(pfx)`. -/
def pyStartsWith (s pfx : String) : Bool := pfx.toList.isPrefixOf s.toList

/-- The whitespace characters stripped by Python `str.strip()`. -/
def isPySpace (c : Char) : Bool :=
  c == ' ' || c == '\t' || c == '\n' || c == '\r' || c == '\x0b' || c == '\x0c'

/-- Python `str.strip()`: drop leading and trailing whitespace. -/
def pyStrip (s : String) : String :=
  String.mk (((s.toList.dropWhile isPySpace).reverse.dropWhile isPySpace).reverse)

/-- Python `email.split('@')[0]`: the part before the first `'@'`
(the whole string when no `'@'` occurs). -/
def beforeFirstAt (s : List Char) : List Char := s.takeWhile (fun c => c ≠ '@')

/-- Python `email.split('@')[-1]`: the part after the last `'@'`
(the whole string when no `'@'` occurs). -/
def afterLastAt (s : List Char) : List Char :=
  (s.reverse.takeWhile (fun c => c ≠ '@')).reverse

/-- Python slice `s[:n]`. -/
def pySlice (s : String) (n : Nat) : String := String.mk (s.toList.take n)

/-! ## The two regular-expression substitutions of `_extract_username`

`re.sub(r'\+.*$', '', s)`: `.` does not match a newline, and without
`re.MULTILINE` the anchor `$` matches only at the end of the string or just
before a newline that is the last character.  So the substitution deletes
from the leftmost `'+'` whose suffix contains no newline — except possibly a
single trailing one, which survives the match. -/

/-- Whether `.*$` matches the whole suffix `t` after a `'+'`. -/
def plusTailMatches (t : List Char) : Bool :=
  !t.contains '\n' || ((t.getLast? == some '\n') && !t.dropLast.contains '\n')

/-- Python `re.sub(r'\+.*$', '', s)`. -/
def subPlusToEnd : List Char → List Char
  | [] => []
  | c :: rest =>
    if c == '+' && plusTailMatches rest then
      if rest.contains '\n' then ['\n'] else []
    else c :: subPlusToEnd rest

/-- Python `re.sub(r'\.(?=[^@]*$)', '', s)`: delete every `'.'` whose suffix
contains no `'@'` (then the lookahead `[^@]*$` reaches the end of the
string; note `[^@]` does match a newline). -/
def subDotNoAtAhead : List Char → List Char
  | [] => []
  | c :: rest =>
    if c == '.' && !rest.contains '@' then subDotNoAtAhead rest
    else c :: subDotNoAtAhead rest

/-! ## Identity construction (`__init__` lines 41-44, `_extract_username`) -/

/-- `self.email = email.lower().strip()`. -/
def normEmail (raw : String) : String := pyStrip (pyLower raw)

/-- `self.domain = self.email.split('@')[-1]`. -/
def scanner_domain (raw : String) : String :=
  String.mk (afterLastAt (normEmail raw).toList)

/-- `_extract_username` applied to `self.email`:
`local = re.sub(r'\+.*$', '', email.split('@')[0])` then
`re.sub(r'\.(?=[^@]*$)', '', local)`. -/
def extract_username (email : List Char) : List Char :=
  subDotNoAtAhead (subPlusToEnd (beforeFirstAt email))

/-- `self.base_username = self._extract_username()`. -/
def base_username (raw : String) : String :=
  String.mk (extract_username (normEmail raw).toList)

/-! ## Variant synthesis (`_generate_variations`) -/

/-- The strings inserted into the `variations` set by `_generate_variations`,
in source order: the three basic case forms followed by the `patterns`
list.  The `.official`, `.team` and `official.` patterns are inserted
unconditionally (the function takes no mode argument and runs before
`self.deep_scan` is even assigned). -/
def variation_items (base : String) : List String :=
  [base, pyLower base, pyUpper base,
   base ++ "123", base ++ "1", "real" ++ base, "the" ++ base,
   pySlice base 4, pySlice base 8,
   base ++ ".official", base ++ ".team", "official." ++ base]

/-- `list(variations)`: some duplicate-free enumeration of the inserted
items.  CPython iterates a `set` of strings in hash order, which depends on
the per-process hash seed, so the model quantifies over every admissible
enumeration: exactly the permutations of the deduplicated item list. -/
def IsVariationList (base : String) (l : List String) : Prop :=
  l.Nodup ∧ l.Perm (variation_items base).dedup

instance (base : String) (l : List String) : Decidable (IsVariationList base l) :=
  inferInstanceAs (Decidable (_ ∧ _))

/-! Spec-side definition for claims C3 and C6 (refinement comparison). -/

/-- Modelled from the claim's words for C3: the local part before the first
`'@'`, with everything from the first `'+'` onward stripped, then all `'.'`
characters removed. -/
def spec_base_username (raw : String) : String :=
  String.mk ((((beforeFirstAt (normEmail raw).toList).takeWhile
    (fun c => c ≠ '+')).filter (fun c => c ≠ '.')))

/-- Modelled from the claim's words for C6: the basic variant items, with
the `.official`, `.team` and `official.` items added only in extended
mode. -/
def spec_variation_items (base : String) (extended : Bool) : List String :=
  [base, pyLower base, pyUpper base,
   base ++ "123", base ++ "1", "real" ++ base, "the" ++ base,
   pySlice base 4, pySlice base 8] ++
  (if extended then [base ++ ".official", base ++ ".team", "official." ++ base] else [])

/-! ## Substring test (Python `in` on strings) -/

/-- Python `needle in hay` for strings: substring containment. -/
def hasSubstr : List Char → List Char → Bool
  | [], needle => needle.isEmpty
  | c :: t, needle => needle.isPrefixOf (c :: t) || hasSubstr t needle

/-- `hasSubstr` on `String`. -/
def strHasSubstr (hay needle : String) : Bool := hasSubstr hay.toList needle.toList

/-! ## External collaborators as oracles -/

/-- A GitHub event as seen through `response.json()` (parse collaborator). -/
structure GhEvent where
  etype : String
  repo : String
  created_at : String
deriving DecidableEq

/-- Parse-level view of a fetched response body: the results of the
BeautifulSoup and `response.json()` queries the scanner performs are
modelled as fields supplied by the parsing collaborator. -/
structure Body where
  redditErrorDiv : Bool
  linkedinUnavailableDiv : Bool
  fbTitlePageNotFound : Bool
  hrefs : List String
  breachList : List String
  ghEvents : List GhEvent
  redditComments : List String
deriving DecidableEq

/-- An HTTP response as returned by `requests.get`. -/
structure Resp where
  status_code : Nat
  body : Body
deriving DecidableEq

/-- A Selenium-rendered page: the raw `page_source` characters plus the
tweet texts the BeautifulSoup pass extracts from it. -/
structure Rendered where
  page_source : List Char
  tweets : List String
deriving DecidableEq

/-- The transport oracles: `fetch url = none` models `_safe_request`
returning `None` (timeout/exception); `driverAvailable` models whether
`_init_selenium` produced a driver; `render url = none` models an exception
inside `driver.get`/`page_source`; `dnsAvailable` models whether the
dnspython module is importable; `mxRecords domain = none` models a
resolver exception. -/
structure Transport where
  fetch : String → Option Resp
  driverAvailable : Bool
  render : String → Option Rendered
  dnsAvailable : Bool
  mxRecords : String → Option (List String)

/-! ## Findings (the `results['findings']` document) -/

/-- A `{url, username}` record stored under `findings['social_media']`. -/
structure SMEntry where
  url : String
  username : String
deriving DecidableEq

/-- A deep-scan record under `findings['comments_mentions']` (payload
abstracted to an item count and a string sample). -/
structure CMEntry where
  count : Nat
  sample : List String
deriving DecidableEq

/-- `domain_info['email_hosted']`: `True`, `False`, or the string
`"Unknown (dnspython not installed)"`. -/
inductive EmailHosted
  | hosted
  | notHosted
  | unknownMarker
deriving DecidableEq

/-- The `domain_info` findings slot. -/
structure DomainInfo where
  domain : String
  website_accessible : Bool
  email_hosted : EmailHosted
deriving DecidableEq

/-- The findings document.  Python dicts are insertion-ordered
association lists. -/
structure Findings where
  breaches : List String
  social_media : List (String × SMEntry)
  public_mentions : List (String × List String)
  comments_mentions : List (String × CMEntry)
  domain_info : Option DomainInfo
deriving DecidableEq

def emptyFindings : Findings :=
  { breaches := [], social_media := [], public_mentions := [],
    comments_mentions := [], domain_info := none }

/-- Python dict assignment `d[k] = v`: replace in place if present,
append otherwise. -/
def upsert {α : Type} : List (String × α) → String → α → List (String × α)
  | [], k, v => [(k, v)]
  | (k0, v0) :: t, k, v =>
    if k0 == k then (k0, v) :: t else (k0, v0) :: upsert t k v

def setSM (fs : Findings) (p : String) (e : SMEntry) : Findings :=
  { fs with social_media := upsert fs.social_media p e }

def setCM (fs : Findings) (p : String) (e : CMEntry) : Findings :=
  { fs with comments_mentions := upsert fs.comments_mentions p e }

/-! ## Platform URL templates (`check_social_media` lines 160-167) -/

def twitterUrl (u : String) : String := "https://twitter.com/" ++ u
def githubUrl (u : String) : String := "https://github.com/" ++ u
def redditUrl (u : String) : String := "https://www.reddit.com/user/" ++ u
def instagramUrl (u : String) : String := "https://instagram.com/" ++ u
def linkedinUrl (u : String) : String := "https://linkedin.com/in/" ++ u
def facebookUrl (u : String) : String := "https://facebook.com/" ++ u

def platformNames : List String :=
  ["Twitter", "GitHub", "Reddit", "Instagram", "LinkedIn", "Facebook"]

def platformUrl (p u : String) : String :=
  if p == "Twitter" then twitterUrl u
  else if p == "GitHub" then githubUrl u
  else if p == "Reddit" then redditUrl u
  else if p == "Instagram" then instagramUrl u
  else if p == "LinkedIn" then linkedinUrl u
  else if p == "Facebook" then facebookUrl u
  else u

/-- An apostrophe (the not-found markers contain one). -/
def apos : Char := Char.ofNat 39

/-- Twitter marker: `Sorry, that page doesn't exist!`. -/
def twitterNotFoundMsg : List Char :=
  "Sorry, that page doesn".toList ++ [apos] ++ "t exist!".toList

/-- Instagram marker: `Sorry, this page isn't available.`. -/
def instagramNotFoundMsg : List Char :=
  "Sorry, this page isn".toList ++ [apos] ++ "t available.".toList

/-! ## Deep-scan enrichment (`_scan_*`, writes only `comments_mentions`) -/

def twitterSearchUrl (u : String) : String :=
  "https://twitter.com/search?q=from%3A" ++ u ++ "&src=typed_query"

def scan_twitter_comments (t : Transport) (fs : Findings) (u : String) : Findings :=
  match t.render (twitterSearchUrl u) with
  | some r =>
    if r.tweets.isEmpty then fs
    else setCM fs "Twitter" ⟨r.tweets.length, r.tweets.take 5⟩
  | none => fs

def githubEventsUrl (u : String) : String :=
  "https://api.github.com/users/" ++ u ++ "/events"

def scan_github_activity (t : Transport) (fs : Findings) (u : String) : Findings :=
  match t.fetch (githubEventsUrl u) with
  | some r =>
    if r.status_code == 200 then
      let activity := (r.body.ghEvents.take 10).filter
        (fun e => e.etype == "PushEvent" || e.etype == "IssueCommentEvent")
      if activity.isEmpty then fs
      else setCM fs "GitHub" ⟨activity.length, activity.map GhEvent.repo⟩
    else fs
  | none => fs

def redditCommentsUrl (u : String) : String :=
  "https://www.reddit.com/user/" ++ u ++ "/comments.json?limit=10"

def scan_reddit_comments (t : Transport) (fs : Findings) (u : String) : Findings :=
  match t.fetch (redditCommentsUrl u) with
  | some r =>
    if r.status_code == 200 then
      if r.body.redditComments.isEmpty then fs
      else setCM fs "Reddit" ⟨r.body.redditComments.length, r.body.redditComments.take 5⟩
    else fs
  | none => fs

/-! ## Per-platform checkers (`_check_*`)

Each checker returns the updated findings and the boolean result of the
Python function; a `False` path performs no write. -/

def check_twitter (t : Transport) (deep : Bool) (fs : Findings) (u : String) :
    Findings × Bool :=
  let url := twitterUrl u
  if t.driverAvailable then
    match t.render url with
    | some r =>
      if hasSubstr r.page_source twitterNotFoundMsg then (fs, false)
      else
        let fs1 := setSM fs "Twitter" ⟨url, u⟩
        (if deep then scan_twitter_comments t fs1 u else fs1, true)
    | none => (fs, false)
  else
    match t.fetch url with
    | some r =>
      if r.status_code == 200 then (setSM fs "Twitter" ⟨url, u⟩, true) else (fs, false)
    | none => (fs, false)

def check_github (t : Transport) (deep : Bool) (fs : Findings) (u : String) :
    Findings × Bool :=
  let url := githubUrl u
  match t.fetch url with
  | some r =>
    if r.status_code == 200 then
      let fs1 := setSM fs "GitHub" ⟨url, u⟩
      (if deep then scan_github_activity t fs1 u else fs1, true)
    else (fs, false)
  | none => (fs, false)

def check_reddit (t : Transport) (deep : Bool) (fs : Findings) (u : String) :
    Findings × Bool :=
  let url := redditUrl u
  match t.fetch url with
  | some r =>
    if r.status_code == 200 then
      if r.body.redditErrorDiv then (fs, false)
      else
        let fs1 := setSM fs "Reddit" ⟨url, u⟩
        (if deep then scan_reddit_comments t fs1 u else fs1, true)
    else (fs, false)
  | none => (fs, false)

def check_instagram (t : Transport) (fs : Findings) (u : String) :
    Findings × Bool :=
  let url := instagramUrl u
  if t.driverAvailable then
    match t.render url with
    | some r =>
      if hasSubstr r.page_source instagramNotFoundMsg then (fs, false)
      else (setSM fs "Instagram" ⟨url, u⟩, true)
    | none => (fs, false)
  else (fs, false)

def check_linkedin (t : Transport) (fs : Findings) (u : String) :
    Findings × Bool :=
  let url := linkedinUrl u
  match t.fetch url with
  | some r =>
    if r.status_code == 200 || r.status_code == 999 then
      if r.body.linkedinUnavailableDiv then (fs, false)
      else (setSM fs "LinkedIn" ⟨url, u⟩, true)
    else (fs, false)
  | none => (fs, false)

def check_facebook (t : Transport) (fs : Findings) (u : String) :
    Findings × Bool :=
  let url := facebookUrl u
  match t.fetch url with
  | some r =>
    if r.status_code == 200 then
      if r.body.fbTitlePageNotFound then (fs, false)
      else (setSM fs "Facebook" ⟨url, u⟩, true)
    else (fs, false)
  | none => (fs, false)

def check_platform (t : Transport) (deep : Bool) (fs : Findings) (p u : String) :
    Findings × Bool :=
  if p == "Twitter" then check_twitter t deep fs u
  else if p == "GitHub" then check_github t deep fs u
  else if p == "Reddit" then check_reddit t deep fs u
  else if p == "Instagram" then check_instagram t fs u
  else if p == "LinkedIn" then check_linkedin t fs u
  else if p == "Facebook" then check_facebook t fs u
  else (fs, false)

/-! Pure existence predicates: the boolean each checker computes, which
depends only on the transport and the username. -/

def twitter_exists (t : Transport) (u : String) : Bool :=
  if t.driverAvailable then
    match t.render (twitterUrl u) with
    | some r => !hasSubstr r.page_source twitterNotFoundMsg
    | none => false
  else
    match t.fetch (twitterUrl u) with
    | some r => r.status_code == 200
    | none => false

def github_exists (t : Transport) (u : String) : Bool :=
  match t.fetch (githubUrl u) with
  | some r => r.status_code == 200
  | none => false

def reddit_exists (t : Transport) (u : String) : Bool :=
  match t.fetch (redditUrl u) with
  | some r => r.status_code == 200 && !r.body.redditErrorDiv
  | none => false

def instagram_exists (t : Transport) (u : String) : Bool :=
  if t.driverAvailable then
    match t.render (instagramUrl u) with
    | some r => !hasSubstr r.page_source instagramNotFoundMsg
    | none => false
  else false

def linkedin_exists (t : Transport) (u : String) : Bool :=
  match t.fetch (linkedinUrl u) with
  | some r => (r.status_code == 200 || r.status_code == 999) && !r.body.linkedinUnavailableDiv
  | none => false

def facebook_exists (t : Transport) (u : String) : Bool :=
  match t.fetch (facebookUrl u) with
  | some r => r.status_code == 200 && !r.body.fbTitlePageNotFound
  | none => false

def platform_exists (t : Transport) (p u : String) : Bool :=
  if p == "Twitter" then twitter_exists t u
  else if p == "GitHub" then github_exists t u
  else if p == "Reddit" then reddit_exists t u
  else if p == "Instagram" then instagram_exists t u
  else if p == "LinkedIn" then linkedin_exists t u
  else if p == "Facebook" then facebook_exists t u
  else false

/-! ## Scan state, progress and persistence -/

/-- `results['status']`. -/
inductive Status
  | running
  | completed
  | interrupted
  | failed
deriving DecidableEq

def isTerminal : Status → Bool
  | .running => false
  | _ => true

/-- The report document `self.results`. -/
structure Report where
  email : String
  scan_date : String
  status : Status
  findings : Findings
deriving DecidableEq

/-- Orchestrator state: the report, the progress counter (sequential view;
the interleaved view for claim C8 is modelled further below) and the
persistence log — each `_save_results` call appends the current report. -/
structure ScanState where
  results : Report
  progressCurrent : Nat
  saved : List Report
deriving DecidableEq

/-- `self.progress['total'] = 100`. -/
def progressTotal : Nat := 100

/-- `_update_progress(task, inc)` accounting: add to `current`
(the throttled display does not change any scan state we track). -/
def update_progress (s : ScanState) (inc : Nat) : ScanState :=
  { s with progressCurrent := s.progressCurrent + inc }

def setFindings (s : ScanState) (fs : Findings) : ScanState :=
  { s with results := { s.results with findings := fs } }

def setStatus (s : ScanState) (st : Status) : ScanState :=
  { s with results := { s.results with status := st } }

/-- `_save_results`: persist the current report (JSON serialisation and the
filesystem are external; the log records each persisted document). -/
def save_results (s : ScanState) : ScanState :=
  { s with saved := s.saved ++ [s.results] }

/-- The persistence path: email with `'@'` replaced by `'_'`, suffixed
`_footprint.json`, inside `results/`. -/
def results_filename (email : String) : String :=
  "results/" ++ String.mk (email.toList.map (fun c => if c == '@' then '_' else c))
    ++ "_footprint.json"

/-! ## Stage 1: `check_breaches` -/

def hibpUrl (email : String) : String :=
  "https://haveibeenpwned.com/api/v3/breachedaccount/" ++ email

def check_breaches (t : Transport) (email : String) (s : ScanState) :
    ScanState × Nat :=
  let s1 := update_progress s 5
  match t.fetch (hibpUrl email) with
  | some r =>
    if r.status_code == 200 then
      let s2 := setFindings s1 { s1.results.findings with breaches := r.body.breachList }
      (update_progress s2 15, r.body.breachList.length)
    else (update_progress s1 15, 0)
  | none => (update_progress s1 15, 0)

/-! ## Stage 2: `check_social_media` -/

/-- `for username in self.username_variations[:3]: if check(username): break`
— the inner probe loop over one platform's candidate variants. -/
def probe_first (t : Transport) (deep : Bool) (p : String) :
    Findings → List String → Findings × Bool
  | fs, [] => (fs, false)
  | fs, u :: rest =>
    let r := check_platform t deep fs p u
    if r.2 then (r.1, true) else probe_first t deep p r.1 rest

/-- The outer loop over `platforms.items()`. -/
def csm_fold (t : Transport) (deep : Bool) (vars : List String) :
    List String → ScanState → Nat → ScanState × Nat
  | [], s, found => (s, found)
  | p :: ps, s, found =>
    let s1 := update_progress s 2
    let pr := probe_first t deep p s1.results.findings (vars.take 3)
    csm_fold t deep vars ps (setFindings s1 pr.1) (found + if pr.2 then 1 else 0)

def check_social_media (t : Transport) (deep : Bool) (vars : List String)
    (s : ScanState) : ScanState × Nat :=
  let r := csm_fold t deep vars platformNames s 0
  (update_progress r.1 10, r.2)

/-! ## Stage 3: `search_public_mentions` -/

/-- ASCII hex digit (uppercase), as produced by `urllib.parse.quote`. -/
def hexDigit (n : Nat) : Char :=
  if n < 10 then Char.ofNat (48 + n) else Char.ofNat (55 + n)

def percentByte (b : Nat) : List Char :=
  ['%', hexDigit (b / 16), hexDigit (b % 16)]

/-- UTF-8 bytes of a character. -/
def utf8Bytes (c : Char) : List Nat :=
  let n := c.toNat
  if n < 128 then [n]
  else if n < 2048 then [192 + n / 64, 128 + n % 64]
  else if n < 65536 then [224 + n / 4096, 128 + (n / 64) % 64, 128 + n % 64]
  else [240 + n / 262144, 128 + (n / 4096) % 64, 128 + (n / 64) % 64, 128 + n % 64]

/-- `urllib.parse.quote_plus`: keep alphanumerics and `_.-~`, turn a space
into `'+'`, percent-encode every other byte. -/
def quotePlusChar (c : Char) : List Char :=
  if c == ' ' then ['+']
  else if c.isAlphanum || c == '_' || c == '.' || c == '-' || c == '~' then [c]
  else (utf8Bytes c).flatMap percentByte

def quote_plus (s : String) : String := String.mk (s.toList.flatMap quotePlusChar)

/-- The engine dictionary (URL templates split at the `q=` parameter). -/
def engines : List (String × String) :=
  [("Google", "https://www.google.com/search?q="),
   ("Bing", "https://www.bing.com/search?q="),
   ("DuckDuckGo", "https://duckduckgo.com/?q=")]

def quoteWrap (s : String) : String := "\"" ++ s ++ "\""

/-- The fixed query list. -/
def queries (email base : String) : List String :=
  [quoteWrap email, quoteWrap base,
   "site:github.com " ++ quoteWrap email,
   "site:twitter.com " ++ quoteWrap email,
   "site:pastebin.com " ++ quoteWrap email,
   "site:reddit.com " ++ quoteWrap email]

/-- The link filter: `href.startswith('http') and not any(x in href for x
in ['google', 'bing', 'duckduckgo'])` — note it excludes links mentioning
ANY of the three engines, not just the engine being queried. -/
def link_ok (href : String) : Bool :=
  pyStartsWith href "http" && !strHasSubstr href "google"
    && !strHasSubstr href "bing" && !strHasSubstr href "duckduckgo"

/-- One query against one engine: the filtered links, truncated to 3; a
failed or non-200 fetch contributes nothing. -/
def spm_query (t : Transport) (eurl q : String) : List String :=
  match t.fetch (eurl ++ quote_plus q) with
  | some r => if r.status_code == 200 then (r.body.hrefs.filter link_ok).take 3 else []
  | none => []

/-- `engine_results`: concatenation over all queries, no deduplication. -/
def spm_engine (t : Transport) (email base eurl : String) : List String :=
  (queries email base).flatMap (spm_query t eurl)

def spm_fold (t : Transport) (email base : String) :
    List (String × String) → ScanState → Nat → ScanState × Nat
  | [], s, found => (s, found)
  | (ename, eurl) :: rest, s, found =>
    let s1 := update_progress s 3
    let er := spm_engine t email base eurl
    let s2 :=
      if er.isEmpty then s1
      else setFindings s1 { s1.results.findings with
        public_mentions := upsert s1.results.findings.public_mentions ename er }
    spm_fold t email base rest s2 (if er.isEmpty then found else found + er.length)

def search_public_mentions (t : Transport) (email base : String)
    (s : ScanState) : ScanState × Nat :=
  let r := spm_fold t email base engines s 0
  (update_progress r.1 15, r.2)

/-! ## Stage 4: `analyze_domain` -/

def analyze_domain (t : Transport) (domain : String) (s : ScanState) :
    ScanState × Nat :=
  let s1 := update_progress s 10
  let web : Bool :=
    match t.fetch ("http://" ++ domain) with
    | some r => r.status_code == 200
    | none => false
  let mailHosted : EmailHosted :=
    if t.dnsAvailable then
      match t.mxRecords domain with
      | some recs => if recs.isEmpty then .notHosted else .hosted
      | none => .notHosted
    else .unknownMarker
  let s2 := setFindings s1
    { s1.results.findings with domain_info := some ⟨domain, web, mailHosted⟩ }
  (update_progress s2 10, 1)

/-! ## The orchestrator: `run_scan` -/

/-- The immutable identity data computed by `__init__`. -/
structure Scanner where
  email : String
  domain : String
  base : String
  vars : List String
  deep : Bool

def mk_scanner (raw : String) (vars : List String) (deep : Bool) : Scanner :=
  { email := normEmail raw, domain := scanner_domain raw,
    base := base_username raw, vars := vars, deep := deep }

def init_state (sc : Scanner) (date : String) : ScanState :=
  { results := { email := sc.email, scan_date := date,
                 status := .running, findings := emptyFindings },
    progressCurrent := 0, saved := [] }

/-- The four stages of the `try` block, in call order. -/
def stageList (t : Transport) (sc : Scanner) : List (ScanState → ScanState) :=
  [fun s => (check_breaches t sc.email s).1,
   fun s => (check_social_media t sc.deep sc.vars s).1,
   fun s => (search_public_mentions t sc.email sc.base s).1,
   fun s => (analyze_domain t sc.domain s).1]

def applyStages : List (ScanState → ScanState) → ScanState → ScanState
  | [], s => s
  | f :: rest, s => applyStages rest (f s)

/-- How one invocation of `run_scan` terminates: the `try` body runs to
completion, or a `KeyboardInterrupt` or unexpected exception escapes after
`k` stages have completed (stage-granular: the stages contain their own
failures). -/
inductive RunOutcome
  | ok
  | interruptedAfter (k : Nat)
  | failedAfter (k : Nat)
deriving DecidableEq

def finalStatus : RunOutcome → Status
  | .ok => .completed
  | .interruptedAfter _ => .interrupted
  | .failedAfter _ => .failed

/-- `run_scan`: run the stages, assign the terminal status, persist, and
return the report dict — only the normal path has a `return`; the
`except` handlers fall off the end and return `None`. -/
def run_scan (t : Transport) (sc : Scanner) (o : RunOutcome) (s0 : ScanState) :
    ScanState × Option Report :=
  match o with
  | .ok =>
    let s1 := applyStages (stageList t sc) s0
    let s2 := update_progress s1 20
    let s3 := save_results (setStatus s2 .completed)
    (s3, some s3.results)
  | .interruptedAfter k =>
    let s1 := applyStages ((stageList t sc).take k) s0
    let s2 := save_results (setStatus s1 .interrupted)
    (s2, none)
  | .failedAfter k =>
    let s1 := applyStages ((stageList t sc).take k) s0
    let s2 := save_results (setStatus s1 .failed)
    (s2, none)

/-- What `json.dump(results, f)` writes to a caller-specified output file
in `main`: the JSON document of the returned value — `null` when the
return value is `None`. -/
inductive Dumped
  | null
  | doc (r : Report)
deriving DecidableEq

def dump_return : Option Report → Dumped
  | none => .null
  | some r => .doc r

/-! ## Interleaved model of `_update_progress` (claim C8)

`with threading.Lock():` constructs a NEW lock object on every call, so two
concurrent calls acquire distinct locks.  The body is modelled at the
bytecode-step granularity that matters: acquire, load `current`, store the
incremented value, release. -/

inductive MicroOp
  | acquire (lockId : Nat)
  | load
  | store
  | release (lockId : Nat)
deriving DecidableEq

/-- The micro-operations of one `_update_progress(_, delta)` call holding
lock object `lockId`. -/
def advance_ops (lockId : Nat) : List MicroOp :=
  [.acquire lockId, .load, .store, .release lockId]

/-- Two threads, each running one `advance_ops` program. -/
structure ConcState where
  current : Nat
  heldLocks : List Nat
  pc0 : Nat
  pc1 : Nat
  reg0 : Nat
  reg1 : Nat
deriving DecidableEq

def concInit : ConcState :=
  { current := 0, heldLocks := [], pc0 := 0, pc1 := 0, reg0 := 0, reg1 := 0 }

def bumpPc (s : ConcState) (tid : Bool) : ConcState :=
  if tid then { s with pc1 := s.pc1 + 1 } else { s with pc0 := s.pc0 + 1 }

def setReg (s : ConcState) (tid : Bool) (v : Nat) : ConcState :=
  if tid then { s with reg1 := v } else { s with reg0 := v }

def getReg (s : ConcState) (tid : Bool) : Nat := if tid then s.reg1 else s.reg0

/-- One scheduler step: thread `tid` executes its next micro-operation with
increment `delta`; acquiring a lock that is currently held blocks (no state
change). -/
def conc_step (locks : Bool → Nat) (delta : Nat) (s : ConcState) (tid : Bool) :
    ConcState :=
  let pc := if tid then s.pc1 else s.pc0
  match (advance_ops (locks tid))[pc]? with
  | some (.acquire lid) =>
    if s.heldLocks.contains lid then s
    else bumpPc { s with heldLocks := lid :: s.heldLocks } tid
  | some .load => bumpPc (setReg s tid s.current) tid
  | some .store => bumpPc { s with current := getReg s tid + delta } tid
  | some (.release lid) => bumpPc { s with heldLocks := s.heldLocks.erase lid } tid
  | none => s

def run_sched (locks : Bool → Nat) (delta : Nat) (sched : List Bool) : ConcState :=
  sched.foldl (conc_step locks delta) concInit

/-- Lock allocation as the source executes it: `with threading.Lock():`
creates a fresh lock per call, so the two calls hold distinct locks. -/
def freshLocks : Bool → Nat := fun tid => if tid then 1 else 0

/-- Lock allocation the specification describes: one shared
mutual-exclusion lock. -/
def sharedLocks : Bool → Nat := fun _ => 0

/-- Invariant of the two-thread `advance_ops` system under the SHARED
lock: the lock is held exactly while a thread is inside the critical
section (pc 1..3), at most one thread is inside, `current` carries one
`delta` per completed store, and a thread between load and store holds the
pre-store value in its register. -/
def ConcInv (delta : Nat) (s : ConcState) : Prop :=
  s.pc0 ≤ 4 ∧ s.pc1 ≤ 4 ∧
  ¬((1 ≤ s.pc0 ∧ s.pc0 ≤ 3) ∧ (1 ≤ s.pc1 ∧ s.pc1 ≤ 3)) ∧
  s.heldLocks =
    (if (1 ≤ s.pc0 ∧ s.pc0 ≤ 3) ∨ (1 ≤ s.pc1 ∧ s.pc1 ≤ 3) then [0] else []) ∧
  s.current = (if 3 ≤ s.pc0 then delta else 0) + (if 3 ≤ s.pc1 then delta else 0) ∧
  (s.pc0 = 2 → s.reg0 = (if 3 ≤ s.pc1 then delta else 0)) ∧
  (s.pc1 = 2 → s.reg1 = (if 3 ≤ s.pc0 then delta else 0))

/-! ## Further spec-side definitions (refinement comparisons) -/

/-- Modelled from the claim's words for C4: Twitter requires a rendered-DOM
fetch, and existence is absence of the not-found message in the rendered
page source — so without the browser no existence can be reported. -/
def spec_twitter_exists (t : Transport) (u : String) : Bool :=
  t.driverAvailable &&
    (match t.render (twitterUrl u) with
     | some r => !hasSubstr r.page_source twitterNotFoundMsg
     | none => false)

/-- Modelled from the claim's words for C9: exclude only links that are
self-referential to the queried engine's own domain. -/
def spec_link_ok (engineToken href : String) : Bool :=
  pyStartsWith href "http" && !strHasSubstr href engineToken

/-- Modelled from the claim's words for C9: one query's link harvest under
the own-domain-only exclusion rule. -/
def spec_spm_query (t : Transport) (engineToken eurl q : String) : List String :=
  match t.fetch (eurl ++ quote_plus q) with
  | some r =>
    if r.status_code == 200 then (r.body.hrefs.filter (spec_link_ok engineToken)).take 3
    else []
  | none => []

/-! ## Concrete oracles and inputs used by witnesses and counterexamples -/

def emptyBody : Body :=
  { redditErrorDiv := false, linkedinUnavailableDiv := false,
    fbTitlePageNotFound := false, hrefs := [], breachList := [],
    ghEvents := [], redditComments := [] }

/-- Only the GitHub profile of `janedoe` answers (HTTP 200); everything
else fails at the transport. -/
def t2w : Transport :=
  { fetch := fun url =>
      if url == githubUrl "janedoe" then some { status_code := 200, body := emptyBody }
      else none,
    driverAvailable := false,
    render := fun _ => none,
    dnsAvailable := false,
    mxRecords := fun _ => none }

def sc2w : Scanner :=
  mk_scanner "janedoe@example.com" ["janedoe", "jdoe", "janedoe1", "latevariant"] false

def st2w : ScanState := init_state sc2w "2024-01-01T00:00:00+00:00"

/-- A transport on which every fetch and every render fails. -/
def t5w : Transport :=
  { fetch := fun _ => none, driverAvailable := false, render := fun _ => none,
    dnsAvailable := false, mxRecords := fun _ => none }

def sc5w : Scanner :=
  mk_scanner "jane@example.com" ["jane", "jane1", "realjane", "thejane"] false

/-- No browser, but the Twitter profile URL answers HTTP 200 over plain
HTTP — the fallback path of `_check_twitter`. -/
def t4cx : Transport :=
  { fetch := fun url =>
      if url == twitterUrl "janedoe" then some { status_code := 200, body := emptyBody }
      else none,
    driverAvailable := false,
    render := fun _ => none,
    dnsAvailable := false,
    mxRecords := fun _ => none }

/-- Searching Google for the exact-email query returns one outbound link —
to Bing. -/
def t9cx : Transport :=
  { fetch := fun url =>
      if url == "https://www.google.com/search?q=" ++ quote_plus (quoteWrap "jane@x.com")
      then some { status_code := 200,
                  body := { emptyBody with hrefs := ["https://www.bing.com/profile"] } }
      else none,
    driverAvailable := false,
    render := fun _ => none,
    dnsAvailable := false,
    mxRecords := fun _ => none }

def sc9cx : Scanner := mk_scanner "jane@x.com" ["janex"] false

def st9cx : ScanState := init_state sc9cx "2024-01-01T00:00:00+00:00"

/-- All-failing transport for the C9 witness. -/
def t9w : Transport :=
  { fetch := fun _ => none, driverAvailable := false, render := fun _ => none,
    dnsAvailable := false, mxRecords := fun _ => none }

def sc9w : Scanner := mk_scanner "e@x.com" ["e"] false

def st9w : ScanState := init_state sc9w "2024-01-01T00:00:00+00:00"

/-- All-failing transport for the C10 witness. -/
def t10w : Transport :=
  { fetch := fun _ => none, driverAvailable := false, render := fun _ => none,
    dnsAvailable := false, mxRecords := fun _ => none }

def sc10w : Scanner := mk_scanner "jane@example.com" ["jane"] false

/-- A duplicate-free enumeration of the variation set of base `jane`. -/
def lw6 : List String :=
  ["jane", "JANE", "jane123", "jane1", "realjane", "thejane",
   "jane.official", "jane.team", "official.jane"]

/-- A duplicate-free enumeration of the variation set of base `janedoe`. -/
def lw7 : List String :=
  ["janedoe", "JANEDOE", "janedoe123", "janedoe1", "realjanedoe",
   "thejanedoe", "jane", "janedoe.official", "janedoe.team", "official.janedoe"]

/-! ## Association-list (dict) lemmas -/

/-- Membership in any admissible `list(variations)` enumeration coincides
with membership in the inserted items. -/
theorem isVariationList_mem {base : String} {l : List String}
    (h : IsVariationList base l) (x : String) :
    x ∈ l ↔ x ∈ variation_items base := by
  rw [h.2.mem_iff, List.mem_dedup]

theorem lookup_upsert_self {α : Type} (l : List (String × α)) (k : String) (v : α) :
    (upsert l k v).lookup k = some v := by
  induction l with
  | nil => simp [upsert, List.lookup]
  | cons hd t ih =>
    obtain ⟨k0, v0⟩ := hd
    by_cases hk : k0 = k
    · subst hk
      simp [upsert, List.lookup]
    · have hb : (k0 == k) = false := by simpa using hk
      have hb2 : (k == k0) = false := by simpa using Ne.symm hk
      simp [upsert, List.lookup, hb, hb2, ih]

theorem lookup_upsert_ne {α : Type} (l : List (String × α)) (k k2 : String) (v : α)
    (h : k2 ≠ k) : (upsert l k v).lookup k2 = l.lookup k2 := by
  induction l with
  | nil =>
    have hb : (k2 == k) = false := by simpa using h
    simp [upsert, List.lookup, hb]
  | cons hd t ih =>
    obtain ⟨k0, v0⟩ := hd
    by_cases hk : k0 = k
    · subst hk
      have hb : (k2 == k0) = false := by simpa using h
      simp [upsert, List.lookup, hb]
    · have hb : (k0 == k) = false := by simpa using hk
      simp [upsert, List.lookup, hb, ih]

/-! ## Checker characterizations: the boolean is the pure existence
predicate, a match writes exactly the `{url, username}` entry, and a failed
probe leaves the findings untouched. -/

theorem scan_twitter_comments_sm (t : Transport) (fs : Findings) (u : String) :
    (scan_twitter_comments t fs u).social_media = fs.social_media := by
  unfold scan_twitter_comments
  cases hr : t.render (twitterSearchUrl u) with
  | none => simp [hr]
  | some r =>
    by_cases h : r.tweets.isEmpty <;> simp [hr, h, setCM]

theorem scan_github_activity_sm (t : Transport) (fs : Findings) (u : String) :
    (scan_github_activity t fs u).social_media = fs.social_media := by
  unfold scan_github_activity
  cases hf : t.fetch (githubEventsUrl u) with
  | none => simp [hf]
  | some r =>
    by_cases hs : r.status_code == 200
    · by_cases h : ((r.body.ghEvents.take 10).filter
          (fun e => e.etype == "PushEvent" || e.etype == "IssueCommentEvent")).isEmpty <;>
        simp [hf, hs, h, setCM]
    · simp [hf, hs]

theorem scan_reddit_comments_sm (t : Transport) (fs : Findings) (u : String) :
    (scan_reddit_comments t fs u).social_media = fs.social_media := by
  unfold scan_reddit_comments
  cases hf : t.fetch (redditCommentsUrl u) with
  | none => simp [hf]
  | some r =>
    by_cases hs : r.status_code == 200
    · by_cases h : r.body.redditComments.isEmpty <;> simp [hf, hs, h, setCM]
    · simp [hf, hs]

theorem check_twitter_char (t : Transport) (deep : Bool) (fs : Findings) (u : String) :
    (check_twitter t deep fs u).2 = twitter_exists t u ∧
    (check_twitter t deep fs u).1.social_media =
      (if twitter_exists t u then upsert fs.social_media "Twitter" ⟨twitterUrl u, u⟩
       else fs.social_media) ∧
    (twitter_exists t u = false → (check_twitter t deep fs u).1 = fs) := by
  unfold check_twitter twitter_exists
  cases hd : t.driverAvailable
  · simp only [hd, Bool.false_eq_true, if_false]
    cases hf : t.fetch (twitterUrl u) with
    | none => simp [hf]
    | some r =>
      by_cases hs : r.status_code == 200 <;> simp [hf, hs, setSM]
  · simp only [hd, if_true]
    cases hr : t.render (twitterUrl u) with
    | none => simp [hr]
    | some r =>
      by_cases hm : hasSubstr r.page_source twitterNotFoundMsg
      · simp [hr, hm]
      · cases deep <;> simp [hr, hm, setSM, scan_twitter_comments_sm]

theorem check_github_char (t : Transport) (deep : Bool) (fs : Findings) (u : String) :
    (check_github t deep fs u).2 = github_exists t u ∧
    (check_github t deep fs u).1.social_media =
      (if github_exists t u then upsert fs.social_media "GitHub" ⟨githubUrl u, u⟩
       else fs.social_media) ∧
    (github_exists t u = false → (check_github t deep fs u).1 = fs) := by
  unfold check_github github_exists
  cases hf : t.fetch (githubUrl u) with
  | none => simp [hf]
  | some r =>
    by_cases hs : r.status_code == 200
    · cases deep <;> simp [hf, hs, setSM, scan_github_activity_sm]
    · simp [hf, hs]

theorem check_reddit_char (t : Transport) (deep : Bool) (fs : Findings) (u : String) :
    (check_reddit t deep fs u).2 = reddit_exists t u ∧
    (check_reddit t deep fs u).1.social_media =
      (if reddit_exists t u then upsert fs.social_media "Reddit" ⟨redditUrl u, u⟩
       else fs.social_media) ∧
    (reddit_exists t u = false → (check_reddit t deep fs u).1 = fs) := by
  unfold check_reddit reddit_exists
  cases hf : t.fetch (redditUrl u) with
  | none => simp [hf]
  | some r =>
    by_cases hs : r.status_code == 200
    · by_cases he : r.body.redditErrorDiv
      · simp [hf, hs, he]
      · cases deep <;> simp [hf, hs, he, setSM, scan_reddit_comments_sm]
    · simp [hf, hs]

theorem check_instagram_char (t : Transport) (fs : Findings) (u : String) :
    (check_instagram t fs u).2 = instagram_exists t u ∧
    (check_instagram t fs u).1.social_media =
      (if instagram_exists t u then upsert fs.social_media "Instagram" ⟨instagramUrl u, u⟩
       else fs.social_media) ∧
    (instagram_exists t u = false → (check_instagram t fs u).1 = fs) := by
  unfold check_instagram instagram_exists
  cases hd : t.driverAvailable
  · simp [hd]
  · simp only [hd, if_true]
    cases hr : t.render (instagramUrl u) with
    | none => simp [hr]
    | some r =>
      by_cases hm : hasSubstr r.page_source instagramNotFoundMsg <;> simp [hr, hm, setSM]

theorem check_linkedin_char (t : Transport) (fs : Findings) (u : String) :
    (check_linkedin t fs u).2 = linkedin_exists t u ∧
    (check_linkedin t fs u).1.social_media =
      (if linkedin_exists t u then upsert fs.social_media "LinkedIn" ⟨linkedinUrl u, u⟩
       else fs.social_media) ∧
    (linkedin_exists t u = false → (check_linkedin t fs u).1 = fs) := by
  unfold check_linkedin linkedin_exists
  cases hf : t.fetch (linkedinUrl u) with
  | none => simp [hf]
  | some r =>
    by_cases hs : r.status_code == 200 || r.status_code == 999
    · by_cases he : r.body.linkedinUnavailableDiv <;> simp [hf, hs, he, setSM]
    · simp [hf, hs]

theorem check_facebook_char (t : Transport) (fs : Findings) (u : String) :
    (check_facebook t fs u).2 = facebook_exists t u ∧
    (check_facebook t fs u).1.social_media =
      (if facebook_exists t u then upsert fs.social_media "Facebook" ⟨facebookUrl u, u⟩
       else fs.social_media) ∧
    (facebook_exists t u = false → (check_facebook t fs u).1 = fs) := by
  unfold check_facebook facebook_exists
  cases hf : t.fetch (facebookUrl u) with
  | none => simp [hf]
  | some r =>
    by_cases hs : r.status_code == 200
    · by_cases he : r.body.fbTitlePageNotFound <;> simp [hf, hs, he, setSM]
    · simp [hf, hs]

theorem check_platform_char (t : Transport) (deep : Bool) (fs : Findings) (p u : String) :
    (check_platform t deep fs p u).2 = platform_exists t p u ∧
    (check_platform t deep fs p u).1.social_media =
      (if platform_exists t p u then upsert fs.social_media p ⟨platformUrl p u, u⟩
       else fs.social_media) ∧
    (platform_exists t p u = false → (check_platform t deep fs p u).1 = fs) := by
  unfold check_platform platform_exists platformUrl
  by_cases h1 : p = "Twitter"
  · subst h1; simpa using check_twitter_char t deep fs u
  · simp only [show (p == "Twitter") = false by simpa using h1, if_false, Bool.false_eq_true]
    by_cases h2 : p = "GitHub"
    · subst h2; simpa using check_github_char t deep fs u
    · simp only [show (p == "GitHub") = false by simpa using h2, if_false, Bool.false_eq_true]
      by_cases h3 : p = "Reddit"
      · subst h3; simpa using check_reddit_char t deep fs u
      · simp only [show (p == "Reddit") = false by simpa using h3, if_false, Bool.false_eq_true]
        by_cases h4 : p = "Instagram"
        · subst h4; simpa using check_instagram_char t fs u
        · simp only [show (p == "Instagram") = false by simpa using h4, if_false,
            Bool.false_eq_true]
          by_cases h5 : p = "LinkedIn"
          · subst h5; simpa using check_linkedin_char t fs u
          · simp only [show (p == "LinkedIn") = false by simpa using h5, if_false,
              Bool.false_eq_true]
            by_cases h6 : p = "Facebook"
            · subst h6; simpa using check_facebook_char t fs u
            · simp [show (p == "Facebook") = false by simpa using h6]

/-! ## Probe-loop and stage-fold characterizations -/

/-- The inner variant loop: its boolean is "some variant in the probed list
matches", and it records exactly the first matching variant's entry. -/
theorem probe_first_char (t : Transport) (deep : Bool) (p : String) :
    ∀ (us : List String) (fs : Findings),
    (probe_first t deep p fs us).2 = (us.find? (platform_exists t p)).isSome ∧
    (probe_first t deep p fs us).1.social_media =
      (match us.find? (platform_exists t p) with
       | some u => upsert fs.social_media p ⟨platformUrl p u, u⟩
       | none => fs.social_media) := by
  intro us
  induction us with
  | nil => intro fs; simp [probe_first]
  | cons u rest ih =>
    intro fs
    have hc := check_platform_char t deep fs p u
    by_cases he : platform_exists t p u
    · have hfind : (u :: rest).find? (platform_exists t p) = some u :=
        List.find?_cons_of_pos _ he
      have h2 : (check_platform t deep fs p u).2 = true := by rw [hc.1]; exact he
      refine ⟨?_, ?_⟩
      · simp only [probe_first, h2, if_true, hfind, Option.isSome_some]
      · simp only [probe_first, h2, if_true, hfind]
        rw [hc.2.1]
        simp [he]
    · have heb : platform_exists t p u = false := by simpa using he
      have hfind : (u :: rest).find? (platform_exists t p) =
          rest.find? (platform_exists t p) := List.find?_cons_of_neg _ (by simp [heb])
      have h2 : (check_platform t deep fs p u).2 = false := by rw [hc.1]; exact heb
      have h1 : (check_platform t deep fs p u).1 = fs := hc.2.2 heb
      simp only [probe_first, h2, Bool.false_eq_true, if_false, h1, hfind]
      exact ih fs

/-- The outer platform loop: found-count, status/persistence preservation,
and the per-platform `social_media` entries. -/
theorem csm_fold_char (t : Transport) (deep : Bool) (vars : List String) :
    ∀ (ps : List String) (s : ScanState) (found : Nat),
    ((csm_fold t deep vars ps s found).2 =
      found + ps.countP (fun p => ((vars.take 3).find? (platform_exists t p)).isSome)) ∧
    ((csm_fold t deep vars ps s found).1.results.status = s.results.status) ∧
    ((csm_fold t deep vars ps s found).1.saved = s.saved) ∧
    (∀ q, q ∉ ps →
      (csm_fold t deep vars ps s found).1.results.findings.social_media.lookup q =
        s.results.findings.social_media.lookup q) ∧
    (ps.Nodup → ∀ q ∈ ps,
      (csm_fold t deep vars ps s found).1.results.findings.social_media.lookup q =
        (match (vars.take 3).find? (platform_exists t q) with
         | some u => some ⟨platformUrl q u, u⟩
         | none => s.results.findings.social_media.lookup q)) := by
  intro ps
  induction ps with
  | nil => intro s found; simp [csm_fold]
  | cons p ps ih =>
    intro s found
    have hpr := probe_first_char t deep p (vars.take 3) s.results.findings
    have hstep : csm_fold t deep vars (p :: ps) s found =
        csm_fold t deep vars ps
          (setFindings (update_progress s 2)
            (probe_first t deep p s.results.findings (vars.take 3)).1)
          (found + if (probe_first t deep p s.results.findings (vars.take 3)).2
            then 1 else 0) := by
      rw [csm_fold]
      rfl
    generalize hg : probe_first t deep p s.results.findings (vars.take 3) = pr
      at hpr hstep
    have hrec := ih (setFindings (update_progress s 2) pr.1)
      (found + if pr.2 then 1 else 0)
    have hs2status : (setFindings (update_progress s 2) pr.1).results.status =
      s.results.status := rfl
    have hs2saved : (setFindings (update_progress s 2) pr.1).saved = s.saved := rfl
    have hs2sm : (setFindings (update_progress s 2) pr.1).results.findings.social_media =
      pr.1.social_media := rfl
    refine ⟨?_, ?_, ?_, ?_, ?_⟩
    · -- found count
      rw [hstep, hrec.1, List.countP_cons, hpr.1]
      omega
    · rw [hstep, hrec.2.1, hs2status]
    · rw [hstep, hrec.2.2.1, hs2saved]
    · -- q not probed at all
      intro q hq
      have hqp : q ≠ p := fun h => hq (h ▸ List.mem_cons_self p ps)
      have hqps : q ∉ ps := fun h => hq (List.mem_cons_of_mem p h)
      rw [hstep, hrec.2.2.2.1 q hqps, hs2sm, hpr.2]
      rcases hfind : (vars.take 3).find? (platform_exists t p) with _ | u
      · rfl
      · exact lookup_upsert_ne _ _ _ _ hqp
    · -- q among the probed platforms
      intro hnd q hq
      have hpnotps : p ∉ ps := (List.nodup_cons.mp hnd).1
      have hndps : ps.Nodup := (List.nodup_cons.mp hnd).2
      rcases List.mem_cons.mp hq with hq | hq
      · subst hq
        rw [hstep, hrec.2.2.2.1 q hpnotps, hs2sm, hpr.2]
        rcases hfind : (vars.take 3).find? (platform_exists t q) with _ | u
        · rfl
        · exact lookup_upsert_self _ _ _
      · have hqp : q ≠ p := fun h => hpnotps (h ▸ hq)
        rw [hstep, hrec.2.2.2.2 hndps q hq, hs2sm, hpr.2]
        rcases hfind : (vars.take 3).find? (platform_exists t q) with _ | u2
        · rcases hfindp : (vars.take 3).find? (platform_exists t p) with _ | u
          · rfl
          · exact lookup_upsert_ne _ _ _ _ hqp
        · rfl

/-! ## Stage preservation lemmas (status, persistence log, untouched
findings slots) -/

theorem check_breaches_preserve (t : Transport) (e : String) (s : ScanState) :
    (check_breaches t e s).1.results.status = s.results.status ∧
    (check_breaches t e s).1.saved = s.saved ∧
    (check_breaches t e s).1.results.findings.social_media =
      s.results.findings.social_media := by
  unfold check_breaches
  cases hf : t.fetch (hibpUrl e) with
  | none => simp [hf, update_progress]
  | some r =>
    by_cases hs : r.status_code == 200 <;>
      simp [hf, hs, update_progress, setFindings]

theorem check_social_media_preserve (t : Transport) (deep : Bool)
    (vars : List String) (s : ScanState) :
    (check_social_media t deep vars s).1.results.status = s.results.status ∧
    (check_social_media t deep vars s).1.saved = s.saved := by
  have h := csm_fold_char t deep vars platformNames s 0
  unfold check_social_media
  exact ⟨h.2.1, h.2.2.1⟩

/-- The engine loop of `search_public_mentions`. -/
theorem spm_fold_char (t : Transport) (email base : String) :
    ∀ (es : List (String × String)) (s : ScanState) (found : Nat),
    ((spm_fold t email base es s found).2 =
      found + (es.map (fun e2 => (spm_engine t email base e2.2).length)).sum) ∧
    ((spm_fold t email base es s found).1.results.status = s.results.status) ∧
    ((spm_fold t email base es s found).1.saved = s.saved) ∧
    ((spm_fold t email base es s found).1.results.findings.social_media =
      s.results.findings.social_media) ∧
    (∀ en, en ∉ es.map Prod.fst →
      (spm_fold t email base es s found).1.results.findings.public_mentions.lookup en =
        s.results.findings.public_mentions.lookup en) ∧
    ((es.map Prod.fst).Nodup → ∀ en eu, (en, eu) ∈ es →
      (spm_fold t email base es s found).1.results.findings.public_mentions.lookup en =
        (if (spm_engine t email base eu).isEmpty then
          s.results.findings.public_mentions.lookup en
         else some (spm_engine t email base eu))) := by
  intro es
  induction es with
  | nil => intro s found; simp [spm_fold]
  | cons e2 es ih =>
    obtain ⟨ename, eurl⟩ := e2
    intro s found
    have hmapnd : ∀ h : ((((ename, eurl) :: es).map Prod.fst)).Nodup,
        ename ∉ es.map Prod.fst ∧ (es.map Prod.fst).Nodup := by
      intro h
      rw [List.map_cons] at h
      exact List.nodup_cons.mp h
    by_cases hemp : (spm_engine t email base eurl).isEmpty
    · -- the engine contributed no links: no write, no count
      have hstep : spm_fold t email base ((ename, eurl) :: es) s found =
          spm_fold t email base es (update_progress s 3) found := by
        rw [spm_fold]
        simp [hemp]
      have hrec := ih (update_progress s 3) found
      have hlen : (spm_engine t email base eurl).length = 0 := by
        rw [List.isEmpty_iff.mp hemp]; rfl
      refine ⟨?_, ?_, ?_, ?_, ?_, ?_⟩
      · rw [hstep, hrec.1, List.map_cons, List.sum_cons, hlen]
        omega
      · rw [hstep, hrec.2.1]; rfl
      · rw [hstep, hrec.2.2.1]; rfl
      · rw [hstep, hrec.2.2.2.1]; rfl
      · intro en hen
        have hent : en ∉ es.map Prod.fst := fun h => hen (by simp [h])
        rw [hstep, hrec.2.2.2.2.1 en hent]; rfl
      · intro hnd en eu hmem
        obtain ⟨hhead, hndt⟩ := hmapnd hnd
        rcases List.mem_cons.mp hmem with heq | htail
        · injection heq with h1 h2
          subst h1; subst h2
          rw [hstep, hrec.2.2.2.2.1 en hhead, if_pos hemp]; rfl
        · rw [hstep, hrec.2.2.2.2.2 hndt en eu htail]
          rfl
    · -- the engine stored its links and added their count
      have hstep : spm_fold t email base ((ename, eurl) :: es) s found =
          spm_fold t email base es
            (setFindings (update_progress s 3)
              { (update_progress s 3).results.findings with
                public_mentions :=
                  upsert (update_progress s 3).results.findings.public_mentions ename
                    (spm_engine t email base eurl) })
            (found + (spm_engine t email base eurl).length) := by
        rw [spm_fold]
        simp [hemp]
      have hrec := ih
        (setFindings (update_progress s 3)
          { (update_progress s 3).results.findings with
            public_mentions :=
              upsert (update_progress s 3).results.findings.public_mentions ename
                (spm_engine t email base eurl) })
        (found + (spm_engine t email base eurl).length)
      refine ⟨?_, ?_, ?_, ?_, ?_, ?_⟩
      · rw [hstep, hrec.1, List.map_cons, List.sum_cons]
        have hx : (spm_engine t email base (ename, eurl).2).length =
            (spm_engine t email base eurl).length := rfl
        rw [hx]
        omega
      · rw [hstep, hrec.2.1]; rfl
      · rw [hstep, hrec.2.2.1]; rfl
      · rw [hstep, hrec.2.2.2.1]; rfl
      · intro en hen
        have henh : en ≠ ename := fun h => hen (by simp [h])
        have hent : en ∉ es.map Prod.fst := fun h => hen (by simp [h])
        rw [hstep, hrec.2.2.2.2.1 en hent]
        exact lookup_upsert_ne _ _ _ _ henh
      · intro hnd en eu hmem
        obtain ⟨hhead, hndt⟩ := hmapnd hnd
        rcases List.mem_cons.mp hmem with heq | htail
        · injection heq with h1 h2
          subst h1; subst h2
          rw [hstep, hrec.2.2.2.2.1 en hhead, if_neg hemp]
          exact lookup_upsert_self _ _ _
        · have henh : en ≠ ename := by
            intro h
            exact hhead (h ▸ (List.mem_map_of_mem Prod.fst htail))
          rw [hstep, hrec.2.2.2.2.2 hndt en eu htail]
          by_cases hempu : (spm_engine t email base eu).isEmpty
          · rw [if_pos hempu, if_pos hempu]
            exact lookup_upsert_ne _ _ _ _ henh
          · rw [if_neg hempu, if_neg hempu]

theorem search_public_mentions_preserve (t : Transport) (email base : String)
    (s : ScanState) :
    (search_public_mentions t email base s).1.results.status = s.results.status ∧
    (search_public_mentions t email base s).1.saved = s.saved ∧
    (search_public_mentions t email base s).1.results.findings.social_media =
      s.results.findings.social_media := by
  have h := spm_fold_char t email base engines s 0
  unfold search_public_mentions
  exact ⟨h.2.1, h.2.2.1, h.2.2.2.1⟩

theorem analyze_domain_preserve (t : Transport) (d : String) (s : ScanState) :
    (analyze_domain t d s).1.results.status = s.results.status ∧
    (analyze_domain t d s).1.saved = s.saved ∧
    (analyze_domain t d s).1.results.findings.social_media =
      s.results.findings.social_media := by
  unfold analyze_domain
  simp [update_progress, setFindings]

/-- Every stage preserves the report status and the persistence log. -/
theorem stage_preserve (t : Transport) (sc : Scanner) :
    ∀ f ∈ stageList t sc, ∀ s : ScanState,
      (f s).results.status = s.results.status ∧ (f s).saved = s.saved := by
  intro f hf s
  simp only [stageList, List.mem_cons, List.not_mem_nil, or_false] at hf
  rcases hf with rfl | rfl | rfl | rfl
  · exact ⟨(check_breaches_preserve t sc.email s).1, (check_breaches_preserve t sc.email s).2.1⟩
  · exact check_social_media_preserve t sc.deep sc.vars s
  · exact ⟨(search_public_mentions_preserve t sc.email sc.base s).1,
      (search_public_mentions_preserve t sc.email sc.base s).2.1⟩
  · exact ⟨(analyze_domain_preserve t sc.domain s).1, (analyze_domain_preserve t sc.domain s).2.1⟩

theorem applyStages_preserve (fl : List (ScanState → ScanState))
    (hf : ∀ f ∈ fl, ∀ s : ScanState,
      (f s).results.status = s.results.status ∧ (f s).saved = s.saved) :
    ∀ s : ScanState, (applyStages fl s).results.status = s.results.status ∧
      (applyStages fl s).saved = s.saved := by
  induction fl with
  | nil => intro s; exact ⟨rfl, rfl⟩
  | cons f rest ih =>
    intro s
    have hfs := hf f (List.mem_cons_self f rest) s
    have hr := ih (fun g hg => hf g (List.mem_cons_of_mem f hg)) (f s)
    rw [applyStages]
    exact ⟨hr.1.trans hfs.1, hr.2.trans hfs.2⟩

/-! ## Orchestrator lemmas -/

theorem run_scan_prefix_running (t : Transport) (sc : Scanner) (date : String) :
    ∀ k : Nat,
      (applyStages ((stageList t sc).take k) (init_state sc date)).results.status =
        Status.running ∧
      (applyStages ((stageList t sc).take k) (init_state sc date)).saved = [] := by
  intro k
  have h := applyStages_preserve ((stageList t sc).take k)
    (fun f hf => stage_preserve t sc f (List.take_subset _ _ hf)) (init_state sc date)
  exact ⟨h.1, h.2⟩

theorem run_scan_char (t : Transport) (sc : Scanner) (date : String) (o : RunOutcome) :
    (run_scan t sc o (init_state sc date)).1.results.status = finalStatus o ∧
    (run_scan t sc o (init_state sc date)).1.saved =
      [(run_scan t sc o (init_state sc date)).1.results] ∧
    (run_scan t sc o (init_state sc date)).2 =
      (if o = RunOutcome.ok then some (run_scan t sc o (init_state sc date)).1.results
       else none) := by
  cases o with
  | ok =>
    refine ⟨rfl, ?_, rfl⟩
    show (applyStages (stageList t sc) (init_state sc date)).saved ++ _ = _
    rw [show (applyStages (stageList t sc) (init_state sc date)).saved = []
      from (run_scan_prefix_running t sc date 4).2]
    rfl
  | interruptedAfter k =>
    refine ⟨rfl, ?_, rfl⟩
    show (applyStages ((stageList t sc).take k) (init_state sc date)).saved ++ _ = _
    rw [(run_scan_prefix_running t sc date k).2]
    rfl
  | failedAfter k =>
    refine ⟨rfl, ?_, rfl⟩
    show (applyStages ((stageList t sc).take k) (init_state sc date)).saved ++ _ = _
    rw [(run_scan_prefix_running t sc date k).2]
    rfl

theorem stage_social_lookup (t : Transport) (sc : Scanner) (p : String)
    (hp : p ∈ platformNames)
    (hnone : (sc.vars.take 3).find? (platform_exists t p) = none) :
    ∀ f ∈ stageList t sc, ∀ s : ScanState,
      (f s).results.findings.social_media.lookup p =
        s.results.findings.social_media.lookup p := by
  intro f hf s
  simp only [stageList, List.mem_cons, List.not_mem_nil, or_false] at hf
  rcases hf with rfl | rfl | rfl | rfl
  · rw [(check_breaches_preserve t sc.email s).2.2]
  · have h := (csm_fold_char t sc.deep sc.vars platformNames s 0).2.2.2.2
      (by decide) p hp
    rw [hnone] at h
    exact h
  · rw [(search_public_mentions_preserve t sc.email sc.base s).2.2]
  · rw [(analyze_domain_preserve t sc.domain s).2.2]

theorem applyStages_social_lookup (p : String) (fl : List (ScanState → ScanState))
    (hf : ∀ f ∈ fl, ∀ s : ScanState,
      (f s).results.findings.social_media.lookup p =
        s.results.findings.social_media.lookup p) :
    ∀ s : ScanState, (applyStages fl s).results.findings.social_media.lookup p =
      s.results.findings.social_media.lookup p := by
  induction fl with
  | nil => intro s; rfl
  | cons f rest ih =>
    intro s
    have hfs := hf f (List.mem_cons_self f rest) s
    have hr := ih (fun g hg => hf g (List.mem_cons_of_mem f hg)) (f s)
    rw [applyStages]
    exact hr.trans hfs

theorem run_scan_social_lookup (t : Transport) (sc : Scanner) (date : String)
    (o : RunOutcome) (p : String) (hp : p ∈ platformNames)
    (hnone : (sc.vars.take 3).find? (platform_exists t p) = none) :
    (run_scan t sc o (init_state sc date)).1.results.findings.social_media.lookup p =
      none := by
  have hstage := stage_social_lookup t sc p hp hnone
  cases o with
  | ok =>
    have h := applyStages_social_lookup p (stageList t sc) hstage (init_state sc date)
    exact h.trans rfl
  | interruptedAfter k =>
    have h := applyStages_social_lookup p ((stageList t sc).take k)
      (fun f hf => hstage f (List.take_subset _ _ hf)) (init_state sc date)
    exact h.trans rfl
  | failedAfter k =>
    have h := applyStages_social_lookup p ((stageList t sc).take k)
      (fun f hf => hstage f (List.take_subset _ _ hf)) (init_state sc date)
    exact h.trans rfl

/-! ## The claims -/

/-- C1: for every scan invocation, the report status stays `running`
through every stage prefix with nothing yet persisted, then transitions
exactly once to the single terminal value determined by the outcome; the
report is persisted exactly once, with that terminal status — so the
status is terminal exactly when the report has been persisted, and no two
persisted copies with different terminal states exist. -/
theorem C1_run_scan_persistence (t : Transport) (sc : Scanner) (date : String)
    (o : RunOutcome) :
    (∀ k : Nat,
      (applyStages ((stageList t sc).take k) (init_state sc date)).results.status =
        Status.running ∧
      (applyStages ((stageList t sc).take k) (init_state sc date)).saved = []) ∧
    (run_scan t sc o (init_state sc date)).1.results.status = finalStatus o ∧
    isTerminal (finalStatus o) = true ∧
    (run_scan t sc o (init_state sc date)).1.saved =
      [(run_scan t sc o (init_state sc date)).1.results] := by
  refine ⟨run_scan_prefix_running t sc date, (run_scan_char t sc date o).1, ?_,
    (run_scan_char t sc date o).2.1⟩
  cases o <;> rfl

/-- C2: each platform probe walks at most the first 3 variants of the
scanner's variation list and stops at the first variant the platform
reports as existing; the per-platform `social_media` entry is exactly the
`{url, username}` record of that first matching variant (absent platforms
keep their prior entry), the recorded variant lies in the first-3 window,
and `check_social_media` returns the number of platforms with a match. -/
theorem C2_social_media_probe (t : Transport) (deep : Bool) (vars : List String)
    (s : ScanState) :
    (check_social_media t deep vars s).2 =
      platformNames.countP (fun p => ((vars.take 3).find? (platform_exists t p)).isSome) ∧
    (∀ p, p ∈ platformNames →
      (check_social_media t deep vars s).1.results.findings.social_media.lookup p =
        (match (vars.take 3).find? (platform_exists t p) with
         | some u => some ⟨platformUrl p u, u⟩
         | none => s.results.findings.social_media.lookup p)) ∧
    (∀ p u, (vars.take 3).find? (platform_exists t p) = some u → u ∈ vars.take 3) := by
  have h := csm_fold_char t deep vars platformNames s 0
  refine ⟨?_, ?_, ?_⟩
  · show (csm_fold t deep vars platformNames s 0).2 = _
    rw [h.1]
    exact Nat.zero_add _
  · intro p hp
    exact h.2.2.2.2 (by decide) p hp
  · intro p u hu
    exact List.mem_of_find?_eq_some hu

theorem C2_social_media_probe_witness :
    ("GitHub" ∈ platformNames) ∧
    (check_social_media t2w false sc2w.vars st2w).1.results.findings.social_media.lookup
        "GitHub" =
      (match (sc2w.vars.take 3).find? (platform_exists t2w "GitHub") with
       | some u => some ⟨platformUrl "GitHub" u, u⟩
       | none => st2w.results.findings.social_media.lookup "GitHub") :=
  ⟨by decide, (C2_social_media_probe t2w false sc2w.vars st2w).2.1 "GitHub" (by decide)⟩

/-- C5: a transport failure (timeout/exception, i.e. a `None` fetch and a
failing render) on every probed variant of a platform makes each probe
report non-existence, leaves that platform absent from the `socialMedia`
findings of the whole scan, and the scan still reaches a terminal
status. -/
theorem C5_transport_failure_nonexistence (t : Transport) (sc : Scanner)
    (date : String) (o : RunOutcome) (p : String)
    (hp : p ∈ platformNames)
    (hf : ∀ u ∈ sc.vars.take 3, t.fetch (platformUrl p u) = none)
    (hr : ∀ u ∈ sc.vars.take 3, t.render (platformUrl p u) = none) :
    (∀ u ∈ sc.vars.take 3, platform_exists t p u = false) ∧
    (run_scan t sc o (init_state sc date)).1.results.findings.social_media.lookup p =
      none ∧
    isTerminal ((run_scan t sc o (init_state sc date)).1.results.status) = true := by
  have hex : ∀ u ∈ sc.vars.take 3, platform_exists t p u = false := by
    intro u hu
    have hfu := hf u hu
    have hru := hr u hu
    simp only [platformNames, List.mem_cons, List.not_mem_nil, or_false] at hp
    rcases hp with rfl | rfl | rfl | rfl | rfl | rfl
    · show twitter_exists t u = false
      unfold twitter_exists
      cases hd : t.driverAvailable
      · simp only [Bool.false_eq_true, if_false]
        rw [show t.fetch (twitterUrl u) = none from hfu]
      · simp only [if_true]
        rw [show t.render (twitterUrl u) = none from hru]
    · show github_exists t u = false
      unfold github_exists
      rw [show t.fetch (githubUrl u) = none from hfu]
    · show reddit_exists t u = false
      unfold reddit_exists
      rw [show t.fetch (redditUrl u) = none from hfu]
    · show instagram_exists t u = false
      unfold instagram_exists
      cases hd : t.driverAvailable
      · simp
      · simp only [if_true]
        rw [show t.render (instagramUrl u) = none from hru]
    · show linkedin_exists t u = false
      unfold linkedin_exists
      rw [show t.fetch (linkedinUrl u) = none from hfu]
    · show facebook_exists t u = false
      unfold facebook_exists
      rw [show t.fetch (facebookUrl u) = none from hfu]
  have hnone : (sc.vars.take 3).find? (platform_exists t p) = none :=
    List.find?_eq_none.mpr (fun u hu => by rw [hex u hu]; exact Bool.false_ne_true)
  refine ⟨hex, run_scan_social_lookup t sc date o p hp hnone, ?_⟩
  rw [(run_scan_char t sc date o).1]
  cases o <;> rfl

theorem C5_transport_failure_witness :
    ("GitHub" ∈ platformNames) ∧
    (∀ u ∈ sc5w.vars.take 3, platform_exists t5w "GitHub" u = false) ∧
    (run_scan t5w sc5w RunOutcome.ok
      (init_state sc5w "2024-01-01")).1.results.findings.social_media.lookup "GitHub" =
      none ∧
    isTerminal ((run_scan t5w sc5w RunOutcome.ok
      (init_state sc5w "2024-01-01")).1.results.status) = true :=
  ⟨by decide,
    C5_transport_failure_nonexistence t5w sc5w "2024-01-01" RunOutcome.ok "GitHub"
      (by decide) (fun u hu => rfl) (fun u hu => rfl)⟩

/-- C10: `run_scan` returns the report dictionary exactly when the scan
completes normally; on the interrupted and failed paths the handlers fall
off the end and the function returns `None` — while the report, carrying
the terminal status, is still persisted — so a caller-specified output
file written from the return value receives `null` instead of the
persisted report. -/
theorem C10_return_value (t : Transport) (sc : Scanner) (date : String)
    (o : RunOutcome) :
    ((run_scan t sc o (init_state sc date)).2 =
        some (run_scan t sc o (init_state sc date)).1.results ↔ o = RunOutcome.ok) ∧
    (o ≠ RunOutcome.ok →
      (run_scan t sc o (init_state sc date)).2 = none ∧
      dump_return (run_scan t sc o (init_state sc date)).2 = Dumped.null ∧
      (run_scan t sc o (init_state sc date)).1.saved =
        [(run_scan t sc o (init_state sc date)).1.results] ∧
      isTerminal ((run_scan t sc o (init_state sc date)).1.results.status) = true) := by
  have hc := run_scan_char t sc date o
  constructor
  · constructor
    · intro hsome
      by_contra hne
      rw [hc.2.2, if_neg hne] at hsome
      exact Option.noConfusion hsome
    · intro hok
      rw [hc.2.2, if_pos hok]
  · intro hne
    refine ⟨?_, ?_, hc.2.1, ?_⟩
    · rw [hc.2.2, if_neg hne]
    · rw [hc.2.2, if_neg hne]; rfl
    · rw [hc.1]; cases o <;> rfl

theorem C10_return_value_witness :
    (RunOutcome.interruptedAfter 2 ≠ RunOutcome.ok) ∧
    (run_scan t10w sc10w (RunOutcome.interruptedAfter 2)
      (init_state sc10w "2024-01-01")).2 = none ∧
    dump_return (run_scan t10w sc10w (RunOutcome.interruptedAfter 2)
      (init_state sc10w "2024-01-01")).2 = Dumped.null :=
  ⟨by decide,
    ((C10_return_value t10w sc10w "2024-01-01" (RunOutcome.interruptedAfter 2)).2
      (by decide)).1,
    ((C10_return_value t10w sc10w "2024-01-01" (RunOutcome.interruptedAfter 2)).2
      (by decide)).2.1⟩

/-! ## Regex-model lemmas for claim C3 -/

/-- On newline-free input, `re.sub(r'\+.*$', '', s)` deletes from the first
`'+'` onward. -/
theorem subPlusToEnd_no_newline : ∀ {l : List Char}, '\n' ∉ l →
    subPlusToEnd l = l.takeWhile (fun c => c ≠ '+') := by
  intro l
  induction l with
  | nil => intro h; rfl
  | cons c rest ih =>
    intro h
    have hrest : '\n' ∉ rest := fun hm => h (List.mem_cons_of_mem _ hm)
    have hcont : rest.contains '\n' = false := by
      cases hb : rest.contains '\n'
      · rfl
      · exact absurd (List.mem_of_elem_eq_true hb) hrest
    by_cases hplus : c = '+'
    · subst hplus
      have hmatch : (('+' == '+') && plusTailMatches rest) = true := by
        simp only [plusTailMatches]
        simp
        exact Or.inl hrest
      have hnc : ¬ (rest.contains '\n' = true) := by
        simp
        exact hrest
      rw [subPlusToEnd, if_pos hmatch, if_neg hnc]
      simp [List.takeWhile_cons]
    · have hmatch : ((c == '+') && plusTailMatches rest) = false := by
        simp [hplus]
      rw [subPlusToEnd, if_neg (by simp [hmatch]), ih hrest, List.takeWhile_cons,
        if_pos (by simp [hplus])]

/-- On `'@'`-free input, `re.sub(r'\.(?=[^@]*$)', '', s)` deletes every
`'.'`. -/
theorem subDotNoAtAhead_no_at : ∀ {l : List Char}, '@' ∉ l →
    subDotNoAtAhead l = l.filter (fun c => c ≠ '.') := by
  intro l
  induction l with
  | nil => intro h; rfl
  | cons c rest ih =>
    intro h
    have hrest : '@' ∉ rest := fun hm => h (List.mem_cons_of_mem _ hm)
    have hcont : rest.contains '@' = false := by
      cases hb : rest.contains '@'
      · rfl
      · exact absurd (List.mem_of_elem_eq_true hb) hrest
    by_cases hdot : c = '.'
    · subst hdot
      have hmatch : (('.' == '.') && !rest.contains '@') = true := by
        simp
        exact hrest
      rw [subDotNoAtAhead, if_pos hmatch, ih hrest, List.filter_cons]
      simp
    · have hmatch : ((c == '.') && !rest.contains '@') = false := by
        simp [hdot]
      rw [subDotNoAtAhead, if_neg (by rw [hmatch]; exact Bool.false_ne_true),
        ih hrest, List.filter_cons, if_pos (by simp [hdot])]

theorem no_at_beforeFirstAt (l : List Char) : '@' ∉ beforeFirstAt l := by
  intro h
  have := List.mem_takeWhile_imp h
  simp at this

/-- C3 counterexample: on an email whose local part contains an interior
newline, the regex `\+.*$` does not match (the `$` anchor cannot be
reached through the newline), so the code does not strip the `+`-suffix
while the claim's formula does. -/
theorem C3_newline_counterexample :
    ('@' ∈ (normEmail "a+b\nc@x.com").toList) ∧
    base_username "a+b\nc@x.com" = "a+b\nc" ∧
    spec_base_username "a+b\nc@x.com" = "a" ∧
    base_username "a+b\nc@x.com" ≠ spec_base_username "a+b\nc@x.com" := by
  refine ⟨by decide, by decide, by decide, by decide⟩

/-- C3 (amended): for every input email containing `'@'` whose local part
(after lower-casing and trimming) contains no newline, the constructed
identity takes the domain after the last `'@'` and derives `baseUsername`
from the part before the first `'@'` by stripping everything from the
first `'+'` onward and removing all `'.'` characters; in particular
`Jane.Doe+work@example.com` yields `janedoe` and `example.com`. -/
theorem C3_username_extraction (raw : String)
    (_hat : '@' ∈ (normEmail raw).toList)
    (hnl : '\n' ∉ beforeFirstAt (normEmail raw).toList) :
    base_username raw = spec_base_username raw ∧
    scanner_domain raw = String.mk (afterLastAt (normEmail raw).toList) ∧
    base_username "Jane.Doe+work@example.com" = "janedoe" ∧
    scanner_domain "Jane.Doe+work@example.com" = "example.com" := by
  refine ⟨?_, rfl, by decide, by decide⟩
  have hsub : subPlusToEnd (beforeFirstAt (normEmail raw).toList) =
      (beforeFirstAt (normEmail raw).toList).takeWhile (fun c => c ≠ '+') :=
    subPlusToEnd_no_newline hnl
  have hnoat : '@' ∉ (beforeFirstAt (normEmail raw).toList).takeWhile
      (fun c => c ≠ '+') := by
    intro hm
    exact no_at_beforeFirstAt (normEmail raw).toList
      ((List.takeWhile_sublist _).subset hm)
  unfold base_username spec_base_username extract_username
  rw [hsub, subDotNoAtAhead_no_at hnoat]

theorem C3_username_extraction_witness :
    ('@' ∈ (normEmail "Jane.Doe+work@example.com").toList) ∧
    ('\n' ∉ beforeFirstAt (normEmail "Jane.Doe+work@example.com").toList) ∧
    base_username "Jane.Doe+work@example.com" =
      spec_base_username "Jane.Doe+work@example.com" :=
  ⟨by decide, by decide,
    (C3_username_extraction "Jane.Doe+work@example.com" (by decide) (by decide)).1⟩

/-! ## Claim C4 -/

/-- C4 counterexample: with no browser available, `_check_twitter` falls
back to a plain HTTP fetch and reports existence on HTTP 200, so Twitter
does not require a rendered-DOM fetch as the claim states. -/
theorem C4_twitter_fallback_counterexample :
    t4cx.driverAvailable = false ∧
    twitter_exists t4cx "janedoe" = true ∧
    (check_twitter t4cx false emptyFindings "janedoe").2 = true ∧
    spec_twitter_exists t4cx "janedoe" = false := by
  refine ⟨rfl, by decide, by decide, by decide⟩

/-- C4 (amended): GitHub treats a plain-HTTP 200 alone as existence (it
checks no not-found marker); Reddit and Facebook combine HTTP 200 with
absence of their not-found marker, LinkedIn accepts 200 or 999 combined
with absence of its marker; Instagram requires the rendered-DOM fetch
(no browser ⇒ non-existence), while Twitter uses the rendered-DOM rule
when the browser is available and falls back to plain HTTP 200 when it is
not.  In every case the marker rule is absence of the known not-found
evidence. -/
theorem C4_existence_heuristics (t : Transport) (deep : Bool) (fs : Findings)
    (u : String) :
    ((check_github t deep fs u).2 =
      (match t.fetch (githubUrl u) with
       | some r => r.status_code == 200
       | none => false)) ∧
    ((check_reddit t deep fs u).2 =
      (match t.fetch (redditUrl u) with
       | some r => r.status_code == 200 && !r.body.redditErrorDiv
       | none => false)) ∧
    ((check_linkedin t fs u).2 =
      (match t.fetch (linkedinUrl u) with
       | some r => (r.status_code == 200 || r.status_code == 999) &&
           !r.body.linkedinUnavailableDiv
       | none => false)) ∧
    ((check_facebook t fs u).2 =
      (match t.fetch (facebookUrl u) with
       | some r => r.status_code == 200 && !r.body.fbTitlePageNotFound
       | none => false)) ∧
    ((check_twitter t deep fs u).2 =
      (if t.driverAvailable then
        match t.render (twitterUrl u) with
        | some r => !hasSubstr r.page_source twitterNotFoundMsg
        | none => false
      else
        match t.fetch (twitterUrl u) with
        | some r => r.status_code == 200
        | none => false)) ∧
    ((check_instagram t fs u).2 =
      (if t.driverAvailable then
        match t.render (instagramUrl u) with
        | some r => !hasSubstr r.page_source instagramNotFoundMsg
        | none => false
      else false)) :=
  ⟨(check_github_char t deep fs u).1, (check_reddit_char t deep fs u).1,
   (check_linkedin_char t fs u).1, (check_facebook_char t fs u).1,
   (check_twitter_char t deep fs u).1, (check_instagram_char t fs u).1⟩

/-! ## Claim C6 -/

/-- C6 counterexample: the `.official` pattern is inserted by
`_generate_variations` unconditionally, while the claim includes it only
in extended mode. -/
theorem C6_extended_counterexample :
    "jane.official" ∈ variation_items "jane" ∧
    "jane.official" ∉ spec_variation_items "jane" false := by
  constructor <;> decide

/-- C6 (amended): the variants collection is the deduplicated set of
`base`, `base.lower()`, `base.upper()`, `base+"123"`, `base+"1"`,
`"real"+base`, `"the"+base`, `base[:4]`, `base[:8]`, together with
`base+".official"`, `base+".team"` and `"official."+base`, which are
included unconditionally (in every mode). -/
theorem C6_variation_set (base : String) (l : List String)
    (h : IsVariationList base l) :
    l.Nodup ∧ ∀ x, x ∈ l ↔ x ∈ spec_variation_items base true := by
  refine ⟨h.1, fun x => ?_⟩
  rw [isVariationList_mem h x]
  exact Iff.rfl

theorem C6_variation_set_witness :
    IsVariationList "jane" lw6 ∧
    ("official.jane" ∈ lw6 ↔ "official.jane" ∈ spec_variation_items "jane" true) :=
  ⟨by decide, (C6_variation_set "jane" lw6 (by decide)).2 "official.jane"⟩

/-! ## Claim C7 -/

/-- C7: membership in the variation collection is deterministic, but the
probe order is not — `list(variations)` enumerates a Python string set in
hash order, which varies with the per-process hash seed, so two admissible
runs on the same email can probe different variants: two duplicate-free
enumerations of the same variation set whose first-3 windows differ. -/
theorem C7_unstable_probe_order :
    base_username "jane.doe@example.com" = "janedoe" ∧
    ∃ l1 l2 : List String,
      IsVariationList "janedoe" l1 ∧ IsVariationList "janedoe" l2 ∧
      l1.take 3 ≠ l2.take 3 :=
  ⟨by decide, lw7, lw7.reverse, by decide, by decide, by decide⟩

/-! ## Claim C8 -/

/-- C8: `with threading.Lock():` creates a fresh lock object per call, so
two concurrent `_update_progress(_, 1)` calls hold distinct locks; under
the interleaved semantics there is a schedule in which both calls run to
completion (`pc = 4`) yet `current` ends at 1 — one increment is lost,
refuting mutual exclusion of the progress advance. -/
theorem C8_lost_update :
    freshLocks false ≠ freshLocks true ∧
    (run_sched freshLocks 1 [false, true, false, true, false, true, false, true]).pc0 =
      4 ∧
    (run_sched freshLocks 1 [false, true, false, true, false, true, false, true]).pc1 =
      4 ∧
    (run_sched freshLocks 1 [false, true, false, true, false, true, false, true]).current =
      1 := by
  refine ⟨by decide, rfl, rfl, rfl⟩

/-! ## Claim C9 -/

/-- C9 counterexample: while querying Google, the code discards an
outbound link to Bing (the filter excludes links mentioning any of the
three engines), whereas the claim's own-domain-only rule would collect it;
the engine therefore contributes zero links instead of one. -/
theorem C9_engine_filter_counterexample :
    spm_engine t9cx "jane@x.com" "janex" "https://www.google.com/search?q=" = [] ∧
    spec_spm_query t9cx "google" "https://www.google.com/search?q="
      (quoteWrap "jane@x.com") = ["https://www.bing.com/profile"] ∧
    (search_public_mentions t9cx "jane@x.com" "janex" st9cx).2 = 0 := by
  refine ⟨by decide, by decide, by decide⟩

/-- C9 (amended): per query at most 3 outbound links are collected, each
passing the filter that keeps `http`-prefixed links containing none of the
substrings `google`, `bing`, `duckduckgo` (not merely the queried engine's
own domain); a failed fetch contributes zero links without aborting the
rest; an engine's links are the concatenation over all queries without
deduplication, stored under the engine exactly when non-empty; and the
found-count is the total link count across engines. -/
theorem C9_mention_search (t : Transport) (email base : String) (s : ScanState) :
    (∀ eurl q, (spm_query t eurl q).length ≤ 3) ∧
    (∀ eurl q h2, h2 ∈ spm_query t eurl q → link_ok h2 = true) ∧
    (∀ eurl q, t.fetch (eurl ++ quote_plus q) = none → spm_query t eurl q = []) ∧
    (∀ eurl, spm_engine t email base eurl =
      (queries email base).flatMap (spm_query t eurl)) ∧
    (∀ ename eurl, (ename, eurl) ∈ engines →
      (search_public_mentions t email base s).1.results.findings.public_mentions.lookup
          ename =
        (if (spm_engine t email base eurl).isEmpty then
          s.results.findings.public_mentions.lookup ename
         else some (spm_engine t email base eurl))) ∧
    ((search_public_mentions t email base s).2 =
      (engines.map (fun e2 => (spm_engine t email base e2.2).length)).sum) := by
  refine ⟨?_, ?_, ?_, fun _ => rfl, ?_, ?_⟩
  · intro eurl q
    unfold spm_query
    split
    · split
      · exact List.length_take_le _ _
      · simp
    · simp
  · intro eurl q h2 hmem
    unfold spm_query at hmem
    split at hmem
    · split at hmem
      · exact List.of_mem_filter (List.mem_of_mem_take hmem)
      · simp at hmem
    · simp at hmem
  · intro eurl q hf
    unfold spm_query
    rw [hf]
  · intro ename eurl hmem
    exact (spm_fold_char t email base engines s 0).2.2.2.2.2 (by decide) ename eurl hmem
  · have h := (spm_fold_char t email base engines s 0).1
    show (spm_fold t email base engines s 0).2 = _
    rw [h]
    exact Nat.zero_add _

theorem C9_mention_search_witness :
    (t9w.fetch ("https://www.google.com/search?q=" ++ quote_plus (quoteWrap "e@x.com")) =
      none) ∧
    spm_query t9w "https://www.google.com/search?q=" (quoteWrap "e@x.com") = [] ∧
    (("Google", "https://www.google.com/search?q=") ∈ engines) ∧
    (search_public_mentions t9w "e@x.com" "e" st9w).1.results.findings.public_mentions.lookup
        "Google" =
      (if (spm_engine t9w "e@x.com" "e" "https://www.google.com/search?q=").isEmpty then
        st9w.results.findings.public_mentions.lookup "Google"
       else some (spm_engine t9w "e@x.com" "e" "https://www.google.com/search?q=")) :=
  ⟨rfl,
   (C9_mention_search t9w "e@x.com" "e" st9w).2.2.1 "https://www.google.com/search?q="
     (quoteWrap "e@x.com") rfl,
   by decide,
   (C9_mention_search t9w "e@x.com" "e" st9w).2.2.2.2.1 "Google"
     "https://www.google.com/search?q=" (by decide)⟩

/-! ## Mutual exclusion under the shared lock (contrast for claim C8):
with the single shared lock the specification describes, no interleaving
that completes both `advance_ops` calls can lose an increment. -/

theorem concInit_inv (delta : Nat) : ConcInv delta concInit := by
  dsimp only [ConcInv, concInit]
  refine ⟨by omega, by omega, ?_, ?_, ?_, ?_, ?_⟩
  · rintro ⟨⟨hx, _⟩, _⟩
    omega
  · rw [if_neg]
    rintro (⟨hx, _⟩ | ⟨hx, _⟩) <;> omega
  · simp
  · intro hx
    omega
  · intro hx
    omega

theorem conc_step_inv (delta : Nat) (s : ConcState) (tid : Bool)
    (h : ConcInv delta s) : ConcInv delta (conc_step sharedLocks delta s tid) := by
  obtain ⟨cur, held, pc0, pc1, reg0, reg1⟩ := s
  obtain ⟨hp0, hp1, hmut, hheld, hcur, hr0, hr1⟩ := h
  dsimp only at hp0 hp1 hmut hheld hcur hr0 hr1
  cases tid
  · -- thread 0 steps
    rcases pc0 with _ | _ | _ | _ | pc0
    · -- acquire
      show ConcInv delta
        (if held.contains 0 = true then ⟨cur, held, 0, pc1, reg0, reg1⟩
         else ⟨cur, 0 :: held, 1, pc1, reg0, reg1⟩)
      by_cases hc1 : 1 ≤ pc1 ∧ pc1 ≤ 3
      · have hheq : held = [0] := by
          rw [hheld, if_pos (Or.inr hc1)]
        rw [if_pos (by rw [hheq]; rfl)]
        exact ⟨hp0, hp1, hmut, hheld, hcur, hr0, hr1⟩
      · have hheq : held = [] := by
          rw [hheld, if_neg]
          rintro (⟨hx, _⟩ | hcc)
          · omega
          · exact hc1 hcc
        rw [if_neg (by rw [hheq]; simp)]
        dsimp only [ConcInv]
        refine ⟨by omega, hp1, ?_, ?_, ?_, ?_, ?_⟩
        · rintro ⟨_, hcc⟩
          exact hc1 hcc
        · rw [hheq, if_pos (Or.inl ⟨by omega, by omega⟩)]
        · exact hcur
        · intro hx
          omega
        · intro hx
          exact hr1 hx
    · -- load
      show ConcInv delta ⟨cur, held, 2, pc1, cur, reg1⟩
      dsimp only [ConcInv]
      refine ⟨by omega, hp1, ?_, ?_, ?_, ?_, ?_⟩
      · rintro ⟨_, hcc⟩
        exact hmut ⟨⟨by omega, by omega⟩, hcc⟩
      · rw [hheld, if_pos (Or.inl ⟨by omega, by omega⟩),
          if_pos (Or.inl ⟨by omega, by omega⟩)]
      · exact hcur
      · intro _
        rw [hcur]
        simp
      · intro hx
        exact hr1 hx
    · -- store
      show ConcInv delta ⟨reg0 + delta, held, 3, pc1, reg0, reg1⟩
      dsimp only [ConcInv]
      refine ⟨by omega, hp1, ?_, ?_, ?_, ?_, ?_⟩
      · rintro ⟨_, hcc⟩
        exact hmut ⟨⟨by omega, by omega⟩, hcc⟩
      · rw [hheld, if_pos (Or.inl ⟨by omega, by omega⟩),
          if_pos (Or.inl ⟨by omega, by omega⟩)]
      · rw [hr0 rfl]
        exact Nat.add_comm _ _
      · intro hx
        omega
      · intro hx
        exact (hmut ⟨⟨by omega, by omega⟩, ⟨by omega, by omega⟩⟩).elim
    · -- release
      show ConcInv delta ⟨cur, held.erase 0, 4, pc1, reg0, reg1⟩
      have hnc1 : ¬(1 ≤ pc1 ∧ pc1 ≤ 3) := fun hcc =>
        hmut ⟨⟨by omega, by omega⟩, hcc⟩
      have hheq : held = [0] := by
        rw [hheld, if_pos (Or.inl ⟨by omega, by omega⟩)]
      dsimp only [ConcInv]
      refine ⟨by omega, hp1, ?_, ?_, ?_, ?_, ?_⟩
      · rintro ⟨⟨_, hx⟩, _⟩
        omega
      · rw [hheq, if_neg]
        · rfl
        · rintro (⟨_, hx⟩ | hcc)
          · omega
          · exact hnc1 hcc
      · exact hcur
      · intro hx
        omega
      · intro hx
        exact hr1 hx
    · -- program finished: no step
      show ConcInv delta ⟨cur, held, pc0 + 4, pc1, reg0, reg1⟩
      exact ⟨hp0, hp1, hmut, hheld, hcur, hr0, hr1⟩
  · -- thread 1 steps (symmetric)
    rcases pc1 with _ | _ | _ | _ | pc1
    · show ConcInv delta
        (if held.contains 0 = true then ⟨cur, held, pc0, 0, reg0, reg1⟩
         else ⟨cur, 0 :: held, pc0, 1, reg0, reg1⟩)
      by_cases hc0 : 1 ≤ pc0 ∧ pc0 ≤ 3
      · have hheq : held = [0] := by
          rw [hheld, if_pos (Or.inl hc0)]
        rw [if_pos (by rw [hheq]; rfl)]
        exact ⟨hp0, hp1, hmut, hheld, hcur, hr0, hr1⟩
      · have hheq : held = [] := by
          rw [hheld, if_neg]
          rintro (hcc | ⟨hx, _⟩)
          · exact hc0 hcc
          · omega
        rw [if_neg (by rw [hheq]; simp)]
        dsimp only [ConcInv]
        refine ⟨hp0, by omega, ?_, ?_, ?_, ?_, ?_⟩
        · rintro ⟨hcc, _⟩
          exact hc0 hcc
        · rw [hheq, if_pos (Or.inr ⟨by omega, by omega⟩)]
        · exact hcur
        · intro hx
          exact hr0 hx
        · intro hx
          omega
    · show ConcInv delta ⟨cur, held, pc0, 2, reg0, cur⟩
      dsimp only [ConcInv]
      refine ⟨hp0, by omega, ?_, ?_, ?_, ?_, ?_⟩
      · rintro ⟨hcc, _⟩
        exact hmut ⟨hcc, ⟨by omega, by omega⟩⟩
      · rw [hheld, if_pos (Or.inr ⟨by omega, by omega⟩),
          if_pos (Or.inr ⟨by omega, by omega⟩)]
      · exact hcur
      · intro hx
        exact hr0 hx
      · intro _
        rw [hcur]
        simp
    · show ConcInv delta ⟨reg1 + delta, held, pc0, 3, reg0, reg1⟩
      dsimp only [ConcInv]
      refine ⟨hp0, by omega, ?_, ?_, ?_, ?_, ?_⟩
      · rintro ⟨hcc, _⟩
        exact hmut ⟨hcc, ⟨by omega, by omega⟩⟩
      · rw [hheld, if_pos (Or.inr ⟨by omega, by omega⟩),
          if_pos (Or.inr ⟨by omega, by omega⟩)]
      · rw [hr1 rfl, if_pos (by omega : (3 : Nat) ≤ 3)]
      · intro hx
        exact (hmut ⟨⟨by omega, by omega⟩, ⟨by omega, by omega⟩⟩).elim
      · intro hx
        omega
    · show ConcInv delta ⟨cur, held.erase 0, pc0, 4, reg0, reg1⟩
      have hnc0 : ¬(1 ≤ pc0 ∧ pc0 ≤ 3) := fun hcc =>
        hmut ⟨hcc, ⟨by omega, by omega⟩⟩
      have hheq : held = [0] := by
        rw [hheld, if_pos (Or.inr ⟨by omega, by omega⟩)]
      dsimp only [ConcInv]
      refine ⟨hp0, by omega, ?_, ?_, ?_, ?_, ?_⟩
      · rintro ⟨_, _, hx⟩
        omega
      · rw [hheq, if_neg]
        · rfl
        · rintro (hcc | ⟨_, hx⟩)
          · exact hnc0 hcc
          · omega
      · exact hcur
      · intro hx
        exact hr0 hx
      · intro hx
        omega
    · show ConcInv delta ⟨cur, held, pc0, pc1 + 4, reg0, reg1⟩
      exact ⟨hp0, hp1, hmut, hheld, hcur, hr0, hr1⟩

theorem run_sched_shared_inv (delta : Nat) (sched : List Bool) :
    ConcInv delta (run_sched sharedLocks delta sched) := by
  have hfold : ∀ (l : List Bool) (s : ConcState), ConcInv delta s →
      ConcInv delta (l.foldl (conc_step sharedLocks delta) s) := by
    intro l
    induction l with
    | nil => intro s hs; exact hs
    | cons b r ih => intro s hs; exact ih _ (conc_step_inv delta s b hs)
  exact hfold sched concInit (concInit_inv delta)

/-- With the shared mutual-exclusion lock the specification prescribes,
every schedule under which both `advance_ops` calls run to completion
yields `current = delta + delta`: no increment can be lost.  Together with
`C8_lost_update` this isolates the fresh-lock construction as the cause of
the lost update. -/
theorem sharedLocks_no_lost_update (delta : Nat) (sched : List Bool)
    (h0 : (run_sched sharedLocks delta sched).pc0 = 4)
    (h1 : (run_sched sharedLocks delta sched).pc1 = 4) :
    (run_sched sharedLocks delta sched).current = delta + delta := by
  have h := run_sched_shared_inv delta sched
  have hcur := h.2.2.2.2.1
  rw [h0, h1] at hcur
  simpa using hcur

end Digfoot
